import Mathlib

/-!
Verification of the Capsule-Cabs seat-inventory concurrency engine.

The definitions below are shallow embeddings of the JavaScript source:
* the `SeatAvailability` mongoose model (seat state machine, summary
  counters, lock / confirm / release / cancel / expiry-reaper methods),
* the Redis-backed cache (`setNX` / `get` / `del`) and the
  `SeatLockingService` built on it (distributed lease, service-level
  `lockSeats`, `releaseSeats`, `extendSeatLock`),
* the `Booking` model's cancellation policy
  (`canBeCancelled`, `calculateCancellationFee`).

Timestamps are integers (milliseconds since the epoch, the value of
`Date.now()` / `new Date(...)` in the source).  JavaScript `Date`
objects become `Int`, optional fields become `Option`, thrown `Error`s
become `Except` errors.  Each mutating model method returns the pair
(result, document after the call); since every method validates before
mutating, the document component on the error path is the unchanged
input, exactly as the JavaScript heap is unchanged when the method
throws before touching `this`.
-/

/-- Seat status enum of the `seatsAvailable` sub-schema. -/
inductive SeatStatus
  | available
  | locked
  | booked
  | blocked
deriving DecidableEq, Repr

/-- One element of the `seatsAvailable` array. -/
structure Seat where
  seatNumber : String
  status : SeatStatus
  lockedBy : Option String
  lockedAt : Option Int
  lockExpiry : Option Int
  bookedBy : Option String
  bookedAt : Option Int
  bookingId : Option String
  price : Int
  seatType : String
deriving DecidableEq, Repr

/-- The `summary` sub-document of aggregate counters. -/
structure Summary where
  totalSeats : Int
  availableCount : Int
  lockedCount : Int
  bookedCount : Int
  blockedCount : Int
deriving DecidableEq, Repr

/-- A `SeatAvailability` document for one (routeId, travelDate) pair. -/
structure SeatAvailability where
  seatsAvailable : List Seat
  summary : Summary
deriving DecidableEq, Repr

/-- The error taxonomy of the inventory methods (`throw new Error(...)`). -/
inductive InvError
  | seatUnavailable (seats : List String)
  | ownershipMismatch
  | notFound
deriving DecidableEq, Repr

/-- Model of `this.seatsAvailable.find(s => s.seatNumber === n)`. -/
def findSeat? (seats : List Seat) (n : String) : Option Seat :=
  seats.find? (fun s => s.seatNumber == n)

/-- Mutating the first list element satisfying `p` in place
(the effect of `find` followed by assignment in the source). -/
def setFirstWhere (p : Seat → Bool) (f : Seat → Seat) : List Seat → List Seat
  | [] => []
  | s :: rest => if p s then f s :: rest else s :: setFirstWhere p f rest

/-- Mutating the first seat with seat number `n` in place. -/
def updateFirst (seats : List Seat) (n : String) (f : Seat → Seat) : List Seat :=
  setFirstWhere (fun s => s.seatNumber == n) f seats

/-- A requested seat number is unavailable when it is absent from the
document or its (first matching) seat is not in status `available`:
`!seat || seat.status !== 'available'`. -/
def seatUnavailableIn (doc : SeatAvailability) (n : String) : Bool :=
  match findSeat? doc.seatsAvailable n with
  | none => true
  | some s => !(s.status == SeatStatus.available)

/-- The per-seat mutation performed by `lockSeats` on each requested seat. -/
def lockFn (userId : String) (now lockExpiry : Int) (s : Seat) : Seat :=
  { s with status := .locked, lockedBy := some userId, lockedAt := some now,
           lockExpiry := some lockExpiry }

/-- Model of `seatAvailabilitySchema.methods.lockSeats(seatNumbers, userId,
lockDurationMinutes)` evaluated at time `now = Date.now()`.  On success
returns the common `lockExpiry`; on failure throws listing every
unavailable requested seat, leaving the document untouched. -/
def lockSeats (doc : SeatAvailability) (seatNumbers : List String) (userId : String)
    (now : Int) (lockDurationMinutes : Int) : Except InvError Int × SeatAvailability :=
  let lockExpiry := now + lockDurationMinutes * 60 * 1000
  let unavailableSeats := seatNumbers.filter (fun n => seatUnavailableIn doc n)
  if unavailableSeats.isEmpty then
    let seats := seatNumbers.foldl
      (fun acc n => updateFirst acc n (lockFn userId now lockExpiry)) doc.seatsAvailable
    (Except.ok lockExpiry,
      { doc with
          seatsAvailable := seats,
          summary := { doc.summary with
            lockedCount := doc.summary.lockedCount + seatNumbers.length,
            availableCount := doc.summary.availableCount - seatNumbers.length } })
  else
    (Except.error (InvError.seatUnavailable unavailableSeats), doc)

/-- The filter used by `confirmBooking`:
`seatNumbers.includes(s.seatNumber) && s.status === 'locked' &&
s.lockedBy.toString() === userId.toString()`.
(A seat in status `locked` always carries `lockedBy` in reachable
states, so the JavaScript `.toString()` dereference is total there.) -/
def confirmPred (seatNumbers : List String) (userId : String) (s : Seat) : Bool :=
  seatNumbers.contains s.seatNumber && s.status == SeatStatus.locked &&
    s.lockedBy == some userId

/-- The per-seat mutation performed by `confirmBooking` on a matching seat. -/
def bookFn (userId bookingId : String) (now : Int) (s : Seat) : Seat :=
  { s with status := .booked, bookedBy := some userId, bookedAt := some now,
           bookingId := some bookingId, lockedBy := none, lockedAt := none,
           lockExpiry := none }

/-- Model of `seatAvailabilitySchema.methods.confirmBooking(seatNumbers, userId,
bookingId)` at time `now`.  Note the filter consults only status and
`lockedBy`; `lockExpiry` is never read. -/
def confirmBooking (doc : SeatAvailability) (seatNumbers : List String)
    (userId bookingId : String) (now : Int) : Except InvError Unit × SeatAvailability :=
  let lockedSeats := doc.seatsAvailable.filter (confirmPred seatNumbers userId)
  if lockedSeats.length = seatNumbers.length then
    let seats := doc.seatsAvailable.map (fun s =>
      if confirmPred seatNumbers userId s then bookFn userId bookingId now s else s)
    (Except.ok (),
      { doc with
          seatsAvailable := seats,
          summary := { doc.summary with
            bookedCount := doc.summary.bookedCount + seatNumbers.length,
            lockedCount := doc.summary.lockedCount - seatNumbers.length } })
  else
    (Except.error InvError.ownershipMismatch, doc)

/-- The filter used by `releaseLocks`: requested, currently `locked`, and
(when a user is supplied) locked by that user. -/
def releasePred (seatNumbers : List String) (userId : Option String) (s : Seat) : Bool :=
  seatNumbers.contains s.seatNumber && s.status == SeatStatus.locked &&
    (match userId with
     | none => true
     | some u => s.lockedBy == some u)

/-- Resetting a seat to `available` and clearing its lock fields. -/
def clearLockFn (s : Seat) : Seat :=
  { s with status := .available, lockedBy := none, lockedAt := none, lockExpiry := none }

/-- Model of `seatAvailabilitySchema.methods.releaseLocks(seatNumbers, userId)`:
never throws, returns the released count. -/
def releaseLocks (doc : SeatAvailability) (seatNumbers : List String)
    (userId : Option String) : Nat × SeatAvailability :=
  let releasedCount := (doc.seatsAvailable.filter (releasePred seatNumbers userId)).length
  (releasedCount,
    { doc with
      seatsAvailable := doc.seatsAvailable.map (fun s =>
        if releasePred seatNumbers userId s then clearLockFn s else s),
      summary := { doc.summary with
        availableCount := doc.summary.availableCount + releasedCount,
        lockedCount := doc.summary.lockedCount - releasedCount } })

/-- The filter used by `cancelBooking`:
`s.bookingId === bookingId && s.status === 'booked'`. -/
def cancelPred (bookingId : String) (s : Seat) : Bool :=
  s.bookingId == some bookingId && s.status == SeatStatus.booked

/-- Resetting a cancelled seat to `available`, clearing booking fields. -/
def clearBookingFn (s : Seat) : Seat :=
  { s with status := .available, bookedBy := none, bookedAt := none, bookingId := none }

/-- Model of `seatAvailabilitySchema.methods.cancelBooking(bookingId)`: throws
`NotFound` when no booked seat carries the booking id, otherwise returns
the number of released seats. -/
def cancelBooking (doc : SeatAvailability) (bookingId : String) :
    Except InvError Nat × SeatAvailability :=
  let bookedSeats := doc.seatsAvailable.filter (cancelPred bookingId)
  if bookedSeats.length = 0 then
    (Except.error InvError.notFound, doc)
  else
    (Except.ok bookedSeats.length,
      { doc with
        seatsAvailable := doc.seatsAvailable.map (fun s =>
          if cancelPred bookingId s then clearBookingFn s else s),
        summary := { doc.summary with
          availableCount := doc.summary.availableCount + bookedSeats.length,
          bookedCount := doc.summary.bookedCount - bookedSeats.length } })

/-- A seat matched by the reaper's `$elemMatch` condition:
`lockExpiry < now && status === 'locked'` (a missing `lockExpiry` does
not satisfy `$lt`). -/
def expiredLocked (now : Int) (s : Seat) : Bool :=
  (match s.lockExpiry with
   | some e => decide (e < now)
   | none => false) && s.status == SeatStatus.locked

/-- Phase 1 of the static `releaseExpiredLocks`: the `updateMany` call.
A document matches when some seat has `lockExpiry < now` and some seat
has status `locked` (two independent top-level array conditions).  The
MongoDB positional operator `$` then rewrites a single array element —
modelled as the first element satisfying the query's `status: 'locked'`
condition — setting it to `available` and nulling its lock fields.  The
summary counters are not touched by this phase. -/
def updateManyPhase (now : Int) (doc : SeatAvailability) : SeatAvailability :=
  if (doc.seatsAvailable.any (fun s =>
        match s.lockExpiry with
        | some e => decide (e < now)
        | none => false)) &&
     (doc.seatsAvailable.any (fun s => s.status == SeatStatus.locked)) then
    { doc with seatsAvailable :=
        setFirstWhere (fun s => s.status == SeatStatus.locked) clearLockFn doc.seatsAvailable }
  else doc

/-- Phase 2 of the static `releaseExpiredLocks`: the follow-up `find` +
counter loop, which runs on the state left by phase 1 and adjusts the
counters by the number of seats that are STILL expired-locked. -/
def countersPhase (now : Int) (doc : SeatAvailability) : SeatAvailability :=
  let expiredSeats := doc.seatsAvailable.filter (expiredLocked now)
  if expiredSeats.length > 0 then
    { doc with summary := { doc.summary with
        availableCount := doc.summary.availableCount + expiredSeats.length,
        lockedCount := doc.summary.lockedCount - expiredSeats.length } }
  else doc

/-- Model of `seatAvailabilitySchema.statics.releaseExpiredLocks()` restricted to
one document, evaluated at time `now`. -/
def releaseExpiredLocks (now : Int) (doc : SeatAvailability) : SeatAvailability :=
  countersPhase now (updateManyPhase now doc)

/-- One entry of a route's `seating.seatMap` template. -/
structure TemplateSeat where
  seatNumber : String
  isBlocked : Bool
  priceBase : Int
  pricePremium : Int
  type : String
deriving DecidableEq, Repr

/-- The seat record created from a template entry by `initializeForRoute`. -/
def initSeat (t : TemplateSeat) : Seat :=
  { seatNumber := t.seatNumber,
    status := if t.isBlocked then .blocked else .available,
    lockedBy := none, lockedAt := none, lockExpiry := none,
    bookedBy := none, bookedAt := none, bookingId := none,
    price := t.priceBase + (if t.type == "window" then t.pricePremium else 0),
    seatType := t.type }

/-- Model of `seatAvailabilitySchema.statics.initializeForRoute` on the creation
path (no existing document for the (routeId, travelDate) pair). -/
def initializeForRoute (seatMap : List TemplateSeat) : SeatAvailability :=
  let seatsAvailable := seatMap.map initSeat
  { seatsAvailable := seatsAvailable,
    summary := {
      totalSeats := seatsAvailable.length,
      availableCount := (seatsAvailable.filter
        (fun s => s.status == SeatStatus.available)).length,
      lockedCount := 0,
      bookedCount := 0,
      blockedCount := (seatsAvailable.filter
        (fun s => s.status == SeatStatus.blocked)).length } }

/-- The counter invariant of the spec: the four counters sum to
`totalSeats`, which equals the length of the `seatsAvailable` array. -/
def counterInv (doc : SeatAvailability) : Prop :=
  doc.summary.availableCount + doc.summary.lockedCount + doc.summary.bookedCount +
      doc.summary.blockedCount = doc.summary.totalSeats ∧
    doc.summary.totalSeats = (doc.seatsAvailable.length : Int)

instance (doc : SeatAvailability) : Decidable (counterInv doc) := by
  unfold counterInv; infer_instance

/-- One mutating inventory operation, relating a document to the
document left behind by the call (on success or failure alike). -/
inductive InvStep : SeatAvailability → SeatAvailability → Prop
  | lock (d : SeatAvailability) (ns : List String) (u : String) (now dur : Int) :
      InvStep d (lockSeats d ns u now dur).2
  | confirm (d : SeatAvailability) (ns : List String) (u bid : String) (now : Int) :
      InvStep d (confirmBooking d ns u bid now).2
  | release (d : SeatAvailability) (ns : List String) (u : Option String) :
      InvStep d (releaseLocks d ns u).2
  | cancel (d : SeatAvailability) (bid : String) :
      InvStep d (cancelBooking d bid).2
  | reap (d : SeatAvailability) (now : Int) :
      InvStep d (releaseExpiredLocks now d)

/-- The structured `lockInfo` object stored under the `seat_locks:` key. -/
structure LockInfo where
  routeId : String
  travelDate : String
  seatNumbers : List String
  lockedAt : Int
  expiresAt : Int
deriving DecidableEq, Repr

/-- A cached (JSON-encoded) value: either a plain string (the
distributed-lock token) or a `lockInfo` object. -/
inductive CacheVal
  | str (s : String)
  | info (i : LockInfo)
deriving DecidableEq, Repr

/-- One live Redis entry: stored value and absolute expiry instant
(the `EX` seconds converted to epoch milliseconds). -/
structure CacheEntry where
  value : CacheVal
  expiresAt : Int
deriving DecidableEq, Repr

/-- The Redis key space, as an association list. -/
abbrev Store := List (String × CacheEntry)

/-- Model of `cacheService.get`: a key whose TTL has elapsed behaves as absent. -/
def storeGet (st : Store) (k : String) (now : Int) : Option CacheVal :=
  match st.find? (fun e => e.1 == k) with
  | some e => if now < e.2.expiresAt then some e.2.value else none
  | none => none

/-- Model of `cacheService.set` (`SETEX`): overwrite, with a fresh TTL. -/
def storeSet (st : Store) (k : String) (v : CacheVal) (ttlSeconds now : Int) : Store :=
  (k, ⟨v, now + ttlSeconds * 1000⟩) :: st.filter (fun e => !(e.1 == k))

/-- Model of `cacheService.del`. -/
def storeDel (st : Store) (k : String) : Store :=
  st.filter (fun e => !(e.1 == k))

/-- Model of `cacheService.setNX` (`SET key value NX EX ttl`): succeeds exactly
when no unexpired entry exists for the key. -/
def setNX (st : Store) (k : String) (v : CacheVal) (ttlSeconds now : Int) : Bool × Store :=
  match storeGet st k now with
  | some _ => (false, st)
  | none => (true, storeSet st k v ttlSeconds now)

/-- The distributed-lock key: `booking_lock:${routeId}:${travelDate}`. -/
def lockKey (routeId travelDate : String) : String :=
  "booking_lock:" ++ routeId ++ ":" ++ travelDate

/-- The lock token `${userId}:${Date.now()}`. -/
def lockValue (userId : String) (now : Int) : String :=
  userId ++ ":" ++ toString now

/-- The secondary holds-index key `seat_locks:${userId}`. -/
def seatLocksKey (userId : String) : String :=
  "seat_locks:" ++ userId

/-- JavaScript `String.prototype.startsWith`, modelled on character data. -/
def strStartsWith (s pre : String) : Bool :=
  pre.data.isPrefixOf s.data

/-- Model of `seatLockingService.acquireLock(routeId, travelDate, userId,
lockDuration)` at time `now`. -/
def acquireLock (st : Store) (routeId travelDate userId : String)
    (lockDurationSec now : Int) : Bool × Store :=
  setNX st (lockKey routeId travelDate) (CacheVal.str (lockValue userId now))
    lockDurationSec now

/-- Model of `seatLockingService.releaseLock(routeId, travelDate, userId)` at
time `now`: deletes the entry only when the current value starts with
`${userId}:`. -/
def releaseLock (st : Store) (routeId travelDate userId : String) (now : Int) :
    Bool × Store :=
  match storeGet st (lockKey routeId travelDate) now with
  | some (CacheVal.str v) =>
      if strStartsWith v (userId ++ ":") then
        (true, storeDel st (lockKey routeId travelDate))
      else
        (false, st)
  | some (CacheVal.info _) => (false, st)
  | none => (false, st)

/-- The state visible to the service: the Redis key space, the (single
in-scope) durable `SeatAvailability` document, and the route's seat
template used for lazy initialization. -/
structure ServiceState where
  cache : Store
  db : Option SeatAvailability
  route : Option (List TemplateSeat)
deriving DecidableEq, Repr

/-- Service-level error taxonomy. -/
inductive SvcError
  | lockAcquisitionFailure
  | routeNotFound
  | availabilityNotFound
  | noActiveLocks
  | inv (e : InvError)
deriving DecidableEq, Repr

/-- Model of `seatLockingService.lockSeats(routeId, travelDate, seatNumbers,
userId, lockDurationMinutes)` at time `now`: acquire the distributed
lock (30 s operation TTL), load or lazily initialize the inventory,
invoke the model-level `lockSeats`, record the `seat_locks:` index, and
release the distributed lock on every exit path (the `finally` block). -/
def serviceLockSeats (st : ServiceState) (routeId travelDate : String)
    (seatNumbers : List String) (userId : String) (lockDurationMinutes now : Int) :
    Except SvcError Int × ServiceState :=
  let acq := acquireLock st.cache routeId travelDate userId 30 now
  if acq.1 then
    match st.db, st.route with
    | none, none =>
        (Except.error SvcError.routeNotFound,
          { st with cache := (releaseLock acq.2 routeId travelDate userId now).2 })
    | none, some tmpl =>
        match lockSeats (initializeForRoute tmpl) seatNumbers userId now lockDurationMinutes with
        | (Except.error e, doc') =>
            (Except.error (SvcError.inv e),
              { st with db := some doc',
                        cache := (releaseLock acq.2 routeId travelDate userId now).2 })
        | (Except.ok expiry, doc') =>
            (Except.ok expiry,
              { st with db := some doc',
                        cache := (releaseLock
                          (storeSet acq.2 (seatLocksKey userId)
                            (CacheVal.info ⟨routeId, travelDate, seatNumbers, now, expiry⟩)
                            (lockDurationMinutes * 60) now)
                          routeId travelDate userId now).2 })
    | some doc, _ =>
        match lockSeats doc seatNumbers userId now lockDurationMinutes with
        | (Except.error e, doc') =>
            (Except.error (SvcError.inv e),
              { st with db := some doc',
                        cache := (releaseLock acq.2 routeId travelDate userId now).2 })
        | (Except.ok expiry, doc') =>
            (Except.ok expiry,
              { st with db := some doc',
                        cache := (releaseLock
                          (storeSet acq.2 (seatLocksKey userId)
                            (CacheVal.info ⟨routeId, travelDate, seatNumbers, now, expiry⟩)
                            (lockDurationMinutes * 60) now)
                          routeId travelDate userId now).2 })
  else
    (Except.error SvcError.lockAcquisitionFailure, { st with cache := acq.2 })

/-- Model of `seatLockingService.releaseSeats(routeId, travelDate, seatNumbers,
userId)`: loads the inventory, calls the model-level `releaseLocks`,
and deletes the `seat_locks:` index entry.  The source performs no
distributed-lock acquire or release here. -/
def serviceReleaseSeats (st : ServiceState) (_routeId _travelDate : String)
    (seatNumbers : List String) (userId : String) :
    Except SvcError Nat × ServiceState :=
  match st.db with
  | none => (Except.error SvcError.availabilityNotFound, st)
  | some doc =>
      let r := releaseLocks doc seatNumbers (some userId)
      (Except.ok r.1,
        { st with db := some r.2, cache := storeDel st.cache (seatLocksKey userId) })

/-- Model of `seatLockingService.extendSeatLock(userId, additionalMinutes)` at
time `now`: reads the `seat_locks:` index, rewrites `lockExpiry` on
every listed seat the user holds, and refreshes the index TTL.  The
source performs no distributed-lock acquire or release here either. -/
def serviceExtendSeatLock (st : ServiceState) (userId : String)
    (additionalMinutes now : Int) : Except SvcError Int × ServiceState :=
  match storeGet st.cache (seatLocksKey userId) now with
  | some (CacheVal.info info) =>
      match st.db with
      | none => (Except.error SvcError.availabilityNotFound, st)
      | some doc =>
          let newExpiry := now + additionalMinutes * 60 * 1000
          let doc2 := { doc with seatsAvailable := doc.seatsAvailable.map (fun s =>
            if info.seatNumbers.contains s.seatNumber && s.lockedBy == some userId then
              { s with lockExpiry := some newExpiry }
            else s) }
          (Except.ok newExpiry,
            { st with db := some doc2,
                      cache := storeSet st.cache (seatLocksKey userId)
                        (CacheVal.info { info with expiresAt := newExpiry })
                        ((additionalMinutes + 5) * 60) now })
  | some (CacheVal.str _) => (Except.error SvcError.noActiveLocks, st)
  | none => (Except.error SvcError.noActiveLocks, st)

/-- The cancellation-relevant projection of a `Booking` document.
`departureTime` is the schema-validated `"HH:MM"` string, represented
pre-parsed as `depHours`/`depMinutes` (`split(':').map(Number)` in the
source); `travelDateMs` is the epoch-millisecond value of the
`travelDate` date (midnight of the travel day), so that the JavaScript
`travelDateTime.setHours(hours, minutes)` yields
`travelDateMs + (hours*60 + minutes) * 60000`. -/
structure BookingDoc where
  status : String
  travelDateMs : Int
  depHours : Int
  depMinutes : Int
  totalAmount : Int
deriving DecidableEq, Repr

/-- The scheduled departure instant (travel date combined with the
parsed departure time). -/
def departureInstant (b : BookingDoc) : Int :=
  b.travelDateMs + (b.depHours * 60 + b.depMinutes) * 60000

/-- Result of `canBeCancelled`. -/
inductive CancelCheck
  | notAllowed (reason : String)
  | allowed (msUntilDeparture : Int)
deriving DecidableEq, Repr

/-- Model of `bookingSchema.methods.canBeCancelled()` at time `now`.  The source
computes `hoursUntilDeparture` by real division by 3.6e6 and compares
with 2; division by a positive constant preserves order, so the model
keeps the duration in milliseconds and compares with two hours of
milliseconds. -/
def canBeCancelled (b : BookingDoc) (now : Int) : CancelCheck :=
  if b.status ≠ "confirmed" then
    CancelCheck.notAllowed "Booking is not in confirmed status"
  else
    let ms := departureInstant b - now
    if ms < 2 * 3600000 then
      CancelCheck.notAllowed "Cannot cancel booking less than 2 hours before departure"
    else
      CancelCheck.allowed ms

/-- Model of `bookingSchema.methods.calculateCancellationFee()` at time `now`,
returning `(refundAmount, cancellationFee)`.  For a non-negative
`totalAmount` (the schema enforces `min: 0`), JavaScript
`Math.round(totalAmount * p / 100)` equals `(totalAmount * p + 50) / 100`
in integer division. -/
def calculateCancellationFee (b : BookingDoc) (now : Int) : Int × Int :=
  match canBeCancelled b now with
  | CancelCheck.notAllowed _ => (0, b.totalAmount)
  | CancelCheck.allowed ms =>
      let refundPercentage : Int :=
        if ms ≥ 48 * 3600000 then 90
        else if ms ≥ 24 * 3600000 then 75
        else if ms ≥ 4 * 3600000 then 50
        else 0
      let refundAmount := (b.totalAmount * refundPercentage + 50) / 100
      (refundAmount, b.totalAmount - refundAmount)

/-- The three-seat route template used by the C9 witness. -/
def threeSeatTmpl : List TemplateSeat :=
  [⟨"1", false, 100, 0, "aisle"⟩, ⟨"2", false, 100, 0, "aisle"⟩,
   ⟨"3", false, 100, 0, "aisle"⟩]

/-- A one-seat inventory whose single seat is locked by user u1 with a
hold that expired at t = 0. -/
def lockedSeatDoc : SeatAvailability :=
  { seatsAvailable := [
      { seatNumber := "1", status := SeatStatus.locked, lockedBy := some "u1",
        lockedAt := some 0, lockExpiry := some 0, bookedBy := none, bookedAt := none,
        bookingId := none, price := 500, seatType := "window" }],
    summary := { totalSeats := 1, availableCount := 0, lockedCount := 1,
                 bookedCount := 0, blockedCount := 0 } }

/-- Rewriting every seat's `lockExpiry` field of a document. -/
def withExpiries (f : Seat → Option Int) (doc : SeatAvailability) : SeatAvailability :=
  { doc with seatsAvailable :=
      doc.seatsAvailable.map (fun s => { s with lockExpiry := f s }) }

/-- A two-seat inventory: seat 1 is locked with a hold that expired at
t = 0, seat 2 is free; counters are consistent. -/
def reaperDemoDoc : SeatAvailability :=
  { seatsAvailable := [
      { seatNumber := "1", status := SeatStatus.locked, lockedBy := some "u1",
        lockedAt := some 0, lockExpiry := some 0, bookedBy := none, bookedAt := none,
        bookingId := none, price := 500, seatType := "window" },
      { seatNumber := "2", status := SeatStatus.available, lockedBy := none,
        lockedAt := none, lockExpiry := none, bookedBy := none, bookedAt := none,
        bookingId := none, price := 400, seatType := "aisle" }],
    summary := { totalSeats := 2, availableCount := 1, lockedCount := 1,
                 bookedCount := 0, blockedCount := 0 } }

/-- A one-seat inventory whose seat is booked under booking id B1. -/
def bookedDemoDoc : SeatAvailability :=
  { seatsAvailable := [
      { seatNumber := "1", status := SeatStatus.booked, lockedBy := none,
        lockedAt := none, lockExpiry := none, bookedBy := some "u1",
        bookedAt := some 5, bookingId := some "B1", price := 500,
        seatType := "window" }],
    summary := { totalSeats := 1, availableCount := 0, lockedCount := 0,
                 bookedCount := 1, blockedCount := 0 } }

/-- Store for the C8 counterexample: the (r1, d1) lock key holds the
token from u1's re-acquisition at t = 5000, expiring far in the future. -/
def staleReleaseStore : Store :=
  [(lockKey "r1" "d1", ⟨CacheVal.str (lockValue "u1" 5000), 999999⟩)]

/-- Store for the C8 witness: a lease held by a different user. -/
def otherHolderStore : Store :=
  [(lockKey "r1" "d1", ⟨CacheVal.str (lockValue "alice" 5), 999999⟩)]

/-- Service state for the C4 counterexample: another user's operation
lease on (r1, d1) is live, the inventory's only seat is locked by u1,
and u1's holds index is present. -/
def heldByOtherState : ServiceState :=
  { cache := [
      (lockKey "r1" "d1", ⟨CacheVal.str (lockValue "other" 0), 999999999⟩),
      (seatLocksKey "u1", ⟨CacheVal.info ⟨"r1", "d1", ["1"], 0, 900000⟩, 999999999⟩)],
    db := some lockedSeatDoc,
    route := none }

/-- Model of a `Booking` document with `payment.totalAmount` carried as
an exact rational: the schema declares it only `Number` with `min: 0`
and passenger fares are validated merely as numeric, so fractional
amounts are reachable; the `Int`-amount `BookingDoc` above covers the
whole-currency sub-domain.  The remaining fields are as in
`BookingDoc`. -/
structure BookingDocQ where
  status : String
  travelDateMs : Int
  depHours : Int
  depMinutes : Int
  totalAmount : ℚ
deriving DecidableEq, Repr

/-- The scheduled departure instant of a `BookingDocQ` (same computation
as `departureInstant`). -/
def departureInstantQ (b : BookingDocQ) : Int :=
  b.travelDateMs + (b.depHours * 60 + b.depMinutes) * 60000

/-- JavaScript `Math.round` on an exact rational: the floor of
`x + 1/2` (halves round towards positive infinity). -/
def jsRound (q : ℚ) : Int := ⌊q + 1/2⌋

/-- Model of `bookingSchema.methods.canBeCancelled()` over
`BookingDocQ` (identical control flow to `canBeCancelled`; only the
amount field, unused here, differs). -/
def canBeCancelledQ (b : BookingDocQ) (now : Int) : CancelCheck :=
  if b.status ≠ "confirmed" then
    CancelCheck.notAllowed "Booking is not in confirmed status"
  else
    let ms := departureInstantQ b - now
    if ms < 2 * 3600000 then
      CancelCheck.notAllowed "Cannot cancel booking less than 2 hours before departure"
    else
      CancelCheck.allowed ms

/-- Model of `bookingSchema.methods.calculateCancellationFee()` with
the amount as an exact rational: `Math.round(totalAmount * p / 100)`
becomes `jsRound`, and the fee is the plain subtraction
`totalAmount - refundAmount`, which the source also performs on the
(possibly fractional) `Number`. -/
def calculateCancellationFeeQ (b : BookingDocQ) (now : Int) : ℚ × ℚ :=
  match canBeCancelledQ b now with
  | CancelCheck.notAllowed _ => (0, b.totalAmount)
  | CancelCheck.allowed ms =>
      let refundPercentage : ℚ :=
        if ms ≥ 48 * 3600000 then 90
        else if ms ≥ 24 * 3600000 then 75
        else if ms ≥ 4 * 3600000 then 50
        else 0
      let refundAmount : ℚ :=
        ((jsRound (b.totalAmount * refundPercentage / 100) : Int) : ℚ)
      (refundAmount, b.totalAmount - refundAmount)

/-! ### Helper lemmas about the list manipulations -/

theorem length_setFirstWhere (p : Seat → Bool) (f : Seat → Seat) (l : List Seat) :
    (setFirstWhere p f l).length = l.length := by
  induction l with
  | nil => rfl
  | cons s rest ih =>
      simp only [setFirstWhere]
      split <;> simp [ih]

theorem length_updateFirst (l : List Seat) (n : String) (f : Seat → Seat) :
    (updateFirst l n f).length = l.length :=
  length_setFirstWhere _ _ _

theorem length_foldl_updateFirst (ns : List String) (f : Seat → Seat) (l : List Seat) :
    (ns.foldl (fun acc n => updateFirst acc n f) l).length = l.length := by
  induction ns generalizing l with
  | nil => rfl
  | cons m rest ih =>
      simp only [List.foldl_cons]
      rw [ih, length_updateFirst]

theorem initSeat_status_split (sm : List TemplateSeat) :
    ((sm.map initSeat).filter (fun s => s.status == SeatStatus.available)).length +
      ((sm.map initSeat).filter (fun s => s.status == SeatStatus.blocked)).length =
      sm.length := by
  induction sm with
  | nil => rfl
  | cons t rest ih =>
      simp only [List.map_cons, List.filter_cons]
      by_cases hb : t.isBlocked <;>
        simp [initSeat, hb, List.length_cons] <;> omega

/-! ### Preservation of the counter invariant by each operation -/

theorem counterInv_initializeForRoute (sm : List TemplateSeat) :
    counterInv (initializeForRoute sm) := by
  have h := initSeat_status_split sm
  have hlen : (sm.map initSeat).length = sm.length := by simp
  refine ⟨?_, rfl⟩
  simp only [initializeForRoute, counterInv]
  omega

theorem counterInv_lockSeats (d : SeatAvailability) (ns : List String) (u : String)
    (now dur : Int) (h : counterInv d) : counterInv (lockSeats d ns u now dur).2 := by
  obtain ⟨h1, h2⟩ := h
  simp only [lockSeats]
  split
  · refine ⟨by push_cast; omega, ?_⟩
    simpa [length_foldl_updateFirst] using h2
  · exact ⟨h1, h2⟩

theorem counterInv_confirmBooking (d : SeatAvailability) (ns : List String)
    (u bid : String) (now : Int) (h : counterInv d) :
    counterInv (confirmBooking d ns u bid now).2 := by
  obtain ⟨h1, h2⟩ := h
  simp only [confirmBooking]
  split
  · exact ⟨by push_cast; omega, by simpa using h2⟩
  · exact ⟨h1, h2⟩

theorem counterInv_releaseLocks (d : SeatAvailability) (ns : List String)
    (u : Option String) (h : counterInv d) : counterInv (releaseLocks d ns u).2 := by
  obtain ⟨h1, h2⟩ := h
  simp only [releaseLocks]
  exact ⟨by push_cast; omega, by simpa using h2⟩

theorem counterInv_cancelBooking (d : SeatAvailability) (bid : String)
    (h : counterInv d) : counterInv (cancelBooking d bid).2 := by
  obtain ⟨h1, h2⟩ := h
  simp only [cancelBooking]
  split
  · exact ⟨h1, h2⟩
  · exact ⟨by push_cast; omega, by simpa using h2⟩

theorem counterInv_releaseExpiredLocks (now : Int) (d : SeatAvailability)
    (h : counterInv d) : counterInv (releaseExpiredLocks now d) := by
  obtain ⟨h1, h2⟩ := h
  have hupd : counterInv (updateManyPhase now d) := by
    simp only [updateManyPhase]
    split
    · exact ⟨h1, by simpa [length_setFirstWhere] using h2⟩
    · exact ⟨h1, h2⟩
  obtain ⟨g1, g2⟩ := hupd
  simp only [releaseExpiredLocks, countersPhase]
  split
  · exact ⟨by push_cast; omega, by simpa using g2⟩
  · exact ⟨g1, g2⟩

/-- Claim C1: the counter invariant
`availableCount + lockedCount + bookedCount + blockedCount = totalSeats
= length seatsAvailable` is established by `initializeForRoute` and
preserved by every inventory operation (`lockSeats`, `confirmBooking`,
`releaseLocks`, `cancelBooking`, `releaseExpiredLocks`), on the success
and the failure path alike. -/
theorem C1_counter_invariant :
    (∀ sm : List TemplateSeat, counterInv (initializeForRoute sm)) ∧
    (∀ d d' : SeatAvailability, InvStep d d' → counterInv d → counterInv d') := by
  refine ⟨counterInv_initializeForRoute, fun d d' hstep h => ?_⟩
  cases hstep with
  | lock ns u now dur => exact counterInv_lockSeats d ns u now dur h
  | confirm ns u bid now => exact counterInv_confirmBooking d ns u bid now h
  | release ns u => exact counterInv_releaseLocks d ns u h
  | cancel bid => exact counterInv_cancelBooking d bid h
  | reap now => exact counterInv_releaseExpiredLocks now d h

/-- Witness for C1 at a concrete input: a freshly initialized one-seat
inventory, stepped by a successful `lockSeats`, still satisfies the
invariant. -/
theorem C1_counter_invariant_witness :
    counterInv (lockSeats (initializeForRoute [⟨"1", false, 100, 0, "aisle"⟩])
      ["1"] "u1" 0 15).2 :=
  C1_counter_invariant.2 _ _ (InvStep.lock _ ["1"] "u1" 0 15)
    (C1_counter_invariant.1 _)

/-! ### Lemmas relating `findSeat?` to the in-place updates -/

theorem findSeat?_updateFirst_ne (l : List Seat) (m n : String) (f : Seat → Seat)
    (hf : ∀ s, (f s).seatNumber = s.seatNumber) (hmn : m ≠ n) :
    findSeat? (updateFirst l m f) n = findSeat? l n := by
  induction l with
  | nil => rfl
  | cons s rest ih =>
      simp only [updateFirst, setFirstWhere] at *
      by_cases hs : s.seatNumber = m
      · simp only [hs, beq_self_eq_true, if_true]
        simp only [findSeat?, List.find?_cons]
        have h1 : ((f s).seatNumber == n) = false := by
          simp [hf s, hs, hmn]
        have h2 : (s.seatNumber == n) = false := by
          simp [hs, hmn]
        simp [h1, h2]
      · have hcond : (s.seatNumber == m) = false := by simp [hs]
        simp only [hcond, Bool.false_eq_true, if_false]
        simp only [findSeat?, List.find?_cons]
        cases hsn : (s.seatNumber == n) with
        | true => rfl
        | false => exact ih

theorem findSeat?_updateFirst_eq (l : List Seat) (n : String) (f : Seat → Seat)
    (hf : ∀ s, (f s).seatNumber = s.seatNumber) :
    findSeat? (updateFirst l n f) n = (findSeat? l n).map f := by
  induction l with
  | nil => rfl
  | cons s rest ih =>
      simp only [updateFirst, setFirstWhere] at *
      by_cases hs : s.seatNumber = n
      · simp only [hs, beq_self_eq_true, if_true]
        simp only [findSeat?, List.find?_cons]
        have h1 : ((f s).seatNumber == n) = true := by simp [hf s, hs]
        simp [h1, hs]
      · have hcond : (s.seatNumber == n) = false := by simp [hs]
        simp only [hcond, Bool.false_eq_true, if_false]
        simp only [findSeat?, List.find?_cons, hcond]
        exact ih

theorem findSeat?_foldl_updateFirst (ns : List String) (l : List Seat) (n : String)
    (f : Seat → Seat) (hf : ∀ s, (f s).seatNumber = s.seatNumber)
    (hff : ∀ s, f (f s) = f s) :
    findSeat? (ns.foldl (fun acc m => updateFirst acc m f) l) n =
      if n ∈ ns then (findSeat? l n).map f else findSeat? l n := by
  induction ns generalizing l with
  | nil => simp
  | cons m rest ih =>
      simp only [List.foldl_cons]
      rw [ih (updateFirst l m f)]
      by_cases hmn : m = n
      · subst hmn
        rw [findSeat?_updateFirst_eq l m f hf]
        by_cases hmem : m ∈ rest
        · simp only [hmem, if_true, List.mem_cons, true_or, if_true]
          cases findSeat? l m with
          | none => rfl
          | some s => simp [hff s]
        · simp [hmem]
      · rw [findSeat?_updateFirst_ne l m n f hf hmn]
        by_cases hmem : n ∈ rest
        · simp [hmem]
        · simp [hmem, hmn, Ne.symm hmn]

theorem findSeat?_map (g : Seat → Seat) (hg : ∀ s, (g s).seatNumber = s.seatNumber)
    (l : List Seat) (n : String) :
    findSeat? (l.map g) n = (findSeat? l n).map g := by
  induction l with
  | nil => rfl
  | cons s rest ih =>
      simp only [List.map_cons, findSeat?, List.find?_cons, hg s] at *
      cases hsn : (s.seatNumber == n) with
      | true => rfl
      | false => exact ih

/-! ### Branch equations for `lockSeats` -/

theorem lockSeats_eq_error (doc : SeatAvailability) (ns : List String) (u : String)
    (now dur : Int) (hne : ns.filter (fun n => seatUnavailableIn doc n) ≠ []) :
    lockSeats doc ns u now dur =
      (Except.error (InvError.seatUnavailable
        (ns.filter (fun n => seatUnavailableIn doc n))), doc) := by
  have hb : (ns.filter (fun n => seatUnavailableIn doc n)).isEmpty = false := by
    cases h : ns.filter (fun n => seatUnavailableIn doc n) with
    | nil => exact absurd h hne
    | cons a l => rfl
  simp [lockSeats, hb]

theorem lockSeats_eq_ok (doc : SeatAvailability) (ns : List String) (u : String)
    (now dur : Int) (he : ns.filter (fun n => seatUnavailableIn doc n) = []) :
    lockSeats doc ns u now dur =
      (Except.ok (now + dur * 60 * 1000),
        { doc with
            seatsAvailable := ns.foldl
              (fun acc n => updateFirst acc n (lockFn u now (now + dur * 60 * 1000)))
              doc.seatsAvailable,
            summary := { doc.summary with
              lockedCount := doc.summary.lockedCount + ns.length,
              availableCount := doc.summary.availableCount - ns.length } }) := by
  simp [lockSeats, he]

theorem seat_available_of_not_unavailable (doc : SeatAvailability) (n : String)
    (h : seatUnavailableIn doc n = false) :
    ∃ s, findSeat? doc.seatsAvailable n = some s ∧ s.status = SeatStatus.available := by
  unfold seatUnavailableIn at h
  cases hf : findSeat? doc.seatsAvailable n with
  | none => rw [hf] at h; simp at h
  | some s =>
      rw [hf] at h
      refine ⟨s, rfl, ?_⟩
      simpa using h

theorem seatUnavailableIn_of_locked (doc : SeatAvailability) (n : String) (s : Seat)
    (hf : findSeat? doc.seatsAvailable n = some s)
    (hs : s.status = SeatStatus.locked) : seatUnavailableIn doc n = true := by
  unfold seatUnavailableIn
  rw [hf]
  simp [hs]

/-- Claim C2: `lockSeats` is all-or-nothing.  If any requested seat is
absent or not `available`, the call fails with `SeatUnavailable` listing
exactly the unavailable requested seat numbers and the document (seats
and counters) is unchanged.  If all requested seats are `available`,
every seat in the batch is `locked` with the same `lockExpiry`, the
`lockedCount` grows by the batch size, the `availableCount` shrinks by
the batch size, and the other counters are untouched. -/
theorem C2_lockSeats_all_or_nothing (doc : SeatAvailability) (ns : List String)
    (u : String) (now dur : Int) :
    (ns.filter (fun n => seatUnavailableIn doc n) ≠ [] →
      lockSeats doc ns u now dur =
        (Except.error (InvError.seatUnavailable
          (ns.filter (fun n => seatUnavailableIn doc n))), doc)) ∧
    (ns.filter (fun n => seatUnavailableIn doc n) = [] →
      ∃ d', lockSeats doc ns u now dur = (Except.ok (now + dur * 60 * 1000), d') ∧
        (∀ n ∈ ns, ∃ s, findSeat? d'.seatsAvailable n = some s ∧
          s.status = SeatStatus.locked ∧ s.lockedBy = some u ∧
          s.lockExpiry = some (now + dur * 60 * 1000)) ∧
        d'.summary.lockedCount = doc.summary.lockedCount + ns.length ∧
        d'.summary.availableCount = doc.summary.availableCount - ns.length ∧
        d'.summary.bookedCount = doc.summary.bookedCount ∧
        d'.summary.blockedCount = doc.summary.blockedCount ∧
        d'.summary.totalSeats = doc.summary.totalSeats) := by
  constructor
  · exact lockSeats_eq_error doc ns u now dur
  · intro he
    refine ⟨_, lockSeats_eq_ok doc ns u now dur he, ?_, rfl, rfl, rfl, rfl, rfl⟩
    intro n hn
    have hfalse : seatUnavailableIn doc n = false := by
      have := List.filter_eq_nil_iff.mp he n hn
      simpa using this
    obtain ⟨s, hfind, _⟩ := seat_available_of_not_unavailable doc n hfalse
    have hfold := findSeat?_foldl_updateFirst ns doc.seatsAvailable n
      (lockFn u now (now + dur * 60 * 1000)) (fun _ => rfl) (fun _ => rfl)
    refine ⟨lockFn u now (now + dur * 60 * 1000) s, ?_, rfl, rfl, rfl⟩
    simpa [hn, hfind] using hfold

/-- Witness for C2 on a concrete two-seat inventory: locking both free
seats succeeds with every promised postcondition. -/
theorem C2_lockSeats_all_or_nothing_witness :
    ∃ d', lockSeats (initializeForRoute
        [⟨"1", false, 100, 0, "aisle"⟩, ⟨"2", false, 100, 20, "window"⟩])
        ["1", "2"] "u1" 0 15 = (Except.ok (0 + 15 * 60 * 1000), d') ∧
      (∀ n ∈ ["1", "2"], ∃ s, findSeat? d'.seatsAvailable n = some s ∧
        s.status = SeatStatus.locked ∧ s.lockedBy = some "u1" ∧
        s.lockExpiry = some (0 + 15 * 60 * 1000)) ∧
      d'.summary.lockedCount =
        (initializeForRoute [⟨"1", false, 100, 0, "aisle"⟩,
          ⟨"2", false, 100, 20, "window"⟩]).summary.lockedCount + (2 : Nat) ∧
      d'.summary.availableCount =
        (initializeForRoute [⟨"1", false, 100, 0, "aisle"⟩,
          ⟨"2", false, 100, 20, "window"⟩]).summary.availableCount - (2 : Nat) ∧
      d'.summary.bookedCount =
        (initializeForRoute [⟨"1", false, 100, 0, "aisle"⟩,
          ⟨"2", false, 100, 20, "window"⟩]).summary.bookedCount ∧
      d'.summary.blockedCount =
        (initializeForRoute [⟨"1", false, 100, 0, "aisle"⟩,
          ⟨"2", false, 100, 20, "window"⟩]).summary.blockedCount ∧
      d'.summary.totalSeats =
        (initializeForRoute [⟨"1", false, 100, 0, "aisle"⟩,
          ⟨"2", false, 100, 20, "window"⟩]).summary.totalSeats :=
  (C2_lockSeats_all_or_nothing
    (initializeForRoute [⟨"1", false, 100, 0, "aisle"⟩, ⟨"2", false, 100, 20, "window"⟩])
    ["1", "2"] "u1" 0 15).2 (by decide)

/-- Claim C9: mutating operations on one (routeId, travelDate) inventory
are serialized by the DistributedLock (§5 of the spec), so two
concurrent `lockSeats` calls execute their read-modify-write in one of
the two serial orders.  In either order, whenever the first call
succeeded, the second call on the resulting document fails with
`SeatUnavailable` naming the overlapping seat and changes nothing — at
most one of two overlapping calls can succeed. -/
theorem C9_overlapping_locks_exclusive (doc : SeatAvailability) (ns1 ns2 : List String)
    (u1 u2 : String) (now1 now2 dur1 dur2 : Int) (n : String) (e : Int)
    (d1 : SeatAvailability) (hn1 : n ∈ ns1) (hn2 : n ∈ ns2)
    (hok : lockSeats doc ns1 u1 now1 dur1 = (Except.ok e, d1)) :
    ∃ us, lockSeats d1 ns2 u2 now2 dur2 =
        (Except.error (InvError.seatUnavailable us), d1) ∧ n ∈ us := by
  by_cases hc : ns1.filter (fun m => seatUnavailableIn doc m) = []
  · have heq := lockSeats_eq_ok doc ns1 u1 now1 dur1 hc
    rw [heq] at hok
    have hd1 : _ = d1 := congrArg Prod.snd hok
    have hfalse : seatUnavailableIn doc n = false := by
      simpa using List.filter_eq_nil_iff.mp hc n hn1
    obtain ⟨s, hfind, _⟩ := seat_available_of_not_unavailable doc n hfalse
    have hfold := findSeat?_foldl_updateFirst ns1 doc.seatsAvailable n
      (lockFn u1 now1 (now1 + dur1 * 60 * 1000)) (fun _ => rfl) (fun _ => rfl)
    have hlocked : findSeat? d1.seatsAvailable n =
        some (lockFn u1 now1 (now1 + dur1 * 60 * 1000) s) := by
      rw [← hd1]
      simpa [hn1, hfind] using hfold
    have hunav : seatUnavailableIn d1 n = true :=
      seatUnavailableIn_of_locked d1 n _ hlocked rfl
    have hne2 : ns2.filter (fun m => seatUnavailableIn d1 m) ≠ [] := by
      intro hnil
      have := List.filter_eq_nil_iff.mp hnil n hn2
      simp [hunav] at this
    refine ⟨ns2.filter (fun m => seatUnavailableIn d1 m),
      lockSeats_eq_error d1 ns2 u2 now2 dur2 hne2, ?_⟩
    exact List.mem_filter.mpr ⟨hn2, by simp [hunav]⟩
  · have heq := lockSeats_eq_error doc ns1 u1 now1 dur1 hc
    rw [heq] at hok
    exact absurd (congrArg Prod.fst hok) (by simp)

/-- Witness for C9: user u1 locks seats 1 and 2; user u2's overlapping
request for seats 2 and 3 then fails with seat 2 reported unavailable. -/
theorem C9_overlapping_locks_exclusive_witness :
    ∃ us, lockSeats (lockSeats (initializeForRoute threeSeatTmpl) ["1", "2"] "u1" 0 15).2
        ["2", "3"] "u2" 1000 15 =
        (Except.error (InvError.seatUnavailable us),
          (lockSeats (initializeForRoute threeSeatTmpl) ["1", "2"] "u1" 0 15).2) ∧
      "2" ∈ us :=
  C9_overlapping_locks_exclusive (initializeForRoute threeSeatTmpl) ["1", "2"] ["2", "3"]
    "u1" "u2" 0 1000 15 15 "2" (0 + 15 * 60 * 1000) _
    (by decide) (by decide) rfl

/-- Claim C3 counterexample: at time 1000 the seat's lockExpiry (0) lies
in the past, yet `confirmBooking` succeeds and the seat becomes
`booked` — confirmation does not validate expiry. -/
theorem C3_confirm_expired_counterexample :
    (0 : Int) < 1000 ∧
    (confirmBooking lockedSeatDoc ["1"] "u1" "B1" 1000).1 = Except.ok () ∧
    (findSeat? (confirmBooking lockedSeatDoc ["1"] "u1" "B1" 1000).2.seatsAvailable
        "1").map Seat.status = some SeatStatus.booked :=
  ⟨by decide, rfl, rfl⟩

/-- Claim C3 (amended): `confirmBooking` never consults `lockExpiry` —
its outcome is invariant under arbitrary rewriting of every seat's
`lockExpiry`.  It validates only status `locked` and ownership, so a
seat whose lock has expired but which the reaper has not yet reclaimed
is still confirmed successfully. -/
theorem C3_confirm_ignores_expiry (doc : SeatAvailability) (f : Seat → Option Int)
    (ns : List String) (u bid : String) (now : Int) :
    (confirmBooking (withExpiries f doc) ns u bid now).1 =
      (confirmBooking doc ns u bid now).1 := by
  have hlen : ((withExpiries f doc).seatsAvailable.filter (confirmPred ns u)).length
      = (doc.seatsAvailable.filter (confirmPred ns u)).length := by
    simp only [withExpiries]
    rw [List.filter_map, List.length_map]
    congr 1
  by_cases hcond : (doc.seatsAvailable.filter (confirmPred ns u)).length = ns.length
  · simp [confirmBooking, hlen, hcond]
  · simp [confirmBooking, hlen, hcond]

/-- Claim C5 (code bug): on an inventory holding exactly one expired
locked seat, the reaper resets the seat (afterwards no seat is locked)
but leaves `lockedCount = 1` and `availableCount = 1` — instead of the
claimed decrement/increment by the number reclaimed (0 and 2).  The
`updateMany` positional update touches a single array element and the
follow-up counter pass only counts seats that are still expired-locked
afterwards, so the counters desynchronize from the seat states. -/
theorem C5_reaper_counter_desync :
    (reaperDemoDoc.seatsAvailable.filter (expiredLocked 10)).length = 1 ∧
    counterInv reaperDemoDoc ∧
    ((releaseExpiredLocks 10 reaperDemoDoc).seatsAvailable.filter
        (fun s => s.status == SeatStatus.locked)).length = 0 ∧
    (releaseExpiredLocks 10 reaperDemoDoc).summary.lockedCount = 1 ∧
    (releaseExpiredLocks 10 reaperDemoDoc).summary.availableCount = 1 := by
  decide

/-! ### Branch equations for `cancelBooking` -/

theorem cancelBooking_eq_error (doc : SeatAvailability) (bid : String)
    (he : doc.seatsAvailable.filter (cancelPred bid) = []) :
    cancelBooking doc bid = (Except.error InvError.notFound, doc) := by
  simp [cancelBooking, he]

theorem cancelBooking_eq_ok (doc : SeatAvailability) (bid : String)
    (hne : doc.seatsAvailable.filter (cancelPred bid) ≠ []) :
    cancelBooking doc bid =
      (Except.ok (doc.seatsAvailable.filter (cancelPred bid)).length,
        { doc with
            seatsAvailable := doc.seatsAvailable.map (fun s =>
              if cancelPred bid s then clearBookingFn s else s),
            summary := { doc.summary with
              availableCount := doc.summary.availableCount +
                (doc.seatsAvailable.filter (cancelPred bid)).length,
              bookedCount := doc.summary.bookedCount -
                (doc.seatsAvailable.filter (cancelPred bid)).length } }) := by
  have hz : ¬ (doc.seatsAvailable.filter (cancelPred bid)).length = 0 := by
    simpa [List.length_eq_zero] using hne
  simp [cancelBooking, hz]

theorem findSeat?_eq_of_mem_nodup (l : List Seat) (s : Seat)
    (hmem : s ∈ l) (hnd : (l.map Seat.seatNumber).Nodup) :
    findSeat? l s.seatNumber = some s := by
  induction l with
  | nil => cases hmem
  | cons t rest ih =>
      rw [List.map_cons, List.nodup_cons] at hnd
      rcases List.mem_cons.mp hmem with rfl | hmem'
      · simp [findSeat?]
      · have hne : t.seatNumber ≠ s.seatNumber := by
          intro h
          exact hnd.1 (h ▸ List.mem_map.mpr ⟨s, hmem', rfl⟩)
        have hcond : (t.seatNumber == s.seatNumber) = false := by simp [hne]
        simp only [findSeat?, List.find?_cons, hcond]
        exact ih hmem' hnd.2

/-- Claim C7: `cancelBooking` fails with `NotFound` exactly when no
`booked` seat carries the booking id; otherwise it returns every such
seat to `available` with `bookedBy`, `bookedAt` and `bookingId` cleared,
restores the counters by the released count, and a subsequent
`lockSeats` on those same seats by a different user succeeds. -/
theorem C7_cancelBooking_reverts (doc : SeatAvailability) (bid : String) :
    ((cancelBooking doc bid).1 = Except.error InvError.notFound ↔
      doc.seatsAvailable.filter (cancelPred bid) = []) ∧
    (∀ (k : Nat) (d' : SeatAvailability), cancelBooking doc bid = (Except.ok k, d') →
      k = (doc.seatsAvailable.filter (cancelPred bid)).length ∧ 0 < k ∧
      (∀ n s, findSeat? doc.seatsAvailable n = some s → cancelPred bid s = true →
        ∃ s', findSeat? d'.seatsAvailable n = some s' ∧
          s'.status = SeatStatus.available ∧ s'.bookedBy = none ∧
          s'.bookedAt = none ∧ s'.bookingId = none) ∧
      d'.summary.availableCount = doc.summary.availableCount + (k : Int) ∧
      d'.summary.bookedCount = doc.summary.bookedCount - (k : Int) ∧
      ((doc.seatsAvailable.map Seat.seatNumber).Nodup →
        ∀ (u2 : String) (now dur : Int), ∃ d'',
          lockSeats d' ((doc.seatsAvailable.filter (cancelPred bid)).map Seat.seatNumber)
            u2 now dur = (Except.ok (now + dur * 60 * 1000), d''))) := by
  constructor
  · constructor
    · intro herr
      by_cases hne : doc.seatsAvailable.filter (cancelPred bid) = []
      · exact hne
      · rw [cancelBooking_eq_ok doc bid hne] at herr
        simp at herr
    · intro he
      rw [cancelBooking_eq_error doc bid he]
  · intro k d' heq
    by_cases hne : doc.seatsAvailable.filter (cancelPred bid) = []
    · rw [cancelBooking_eq_error doc bid hne] at heq
      exact absurd (congrArg Prod.fst heq) (by simp)
    · rw [cancelBooking_eq_ok doc bid hne] at heq
      have hk : (doc.seatsAvailable.filter (cancelPred bid)).length = k := by
        have := congrArg Prod.fst heq
        simpa using this
      have hd' : _ = d' := congrArg Prod.snd heq
      have hg : ∀ s : Seat,
          ((if cancelPred bid s then clearBookingFn s else s).seatNumber = s.seatNumber) := by
        intro s
        by_cases hc : cancelPred bid s = true <;> simp [hc, clearBookingFn]
      refine ⟨hk.symm, ?_, ?_, ?_, ?_, ?_⟩
      · rw [← hk]
        exact List.length_pos.mpr hne
      · intro n s hfind hpred
        refine ⟨clearBookingFn s, ?_, rfl, rfl, rfl, rfl⟩
        rw [← hd']
        have := findSeat?_map (fun s => if cancelPred bid s then clearBookingFn s else s)
          hg doc.seatsAvailable n
        simp only [this, hfind, Option.map_some]
        simp [hpred]
      · rw [← hd', ← hk]
      · rw [← hd', ← hk]
      · intro hnd u2 now dur
        have hfilter : ((doc.seatsAvailable.filter (cancelPred bid)).map
            Seat.seatNumber).filter (fun m => seatUnavailableIn d' m) = [] := by
          apply List.filter_eq_nil_iff.mpr
          intro n hn
          obtain ⟨s, hs, rfl⟩ := List.mem_map.mp hn
          obtain ⟨hsmem, hspred⟩ := List.mem_filter.mp hs
          have hfind : findSeat? doc.seatsAvailable s.seatNumber = some s :=
            findSeat?_eq_of_mem_nodup doc.seatsAvailable s hsmem hnd
          have hmap := findSeat?_map
            (fun s => if cancelPred bid s then clearBookingFn s else s)
            hg doc.seatsAvailable s.seatNumber
          have hfind' : findSeat? d'.seatsAvailable s.seatNumber =
              some (clearBookingFn s) := by
            rw [← hd']
            simp only [hmap, hfind, Option.map_some]
            simp [hspred]
          simp [seatUnavailableIn, hfind', clearBookingFn]
        exact ⟨_, lockSeats_eq_ok d' _ u2 now dur hfilter⟩

/-- Witness for C7: cancelling booking B1 and re-locking the freed seat
as a different user succeeds. -/
theorem C7_cancelBooking_reverts_witness :
    ∃ d'', lockSeats (cancelBooking bookedDemoDoc "B1").2
        ((bookedDemoDoc.seatsAvailable.filter (cancelPred "B1")).map Seat.seatNumber)
        "u2" 0 15 = (Except.ok (0 + 15 * 60 * 1000), d'') :=
  (((C7_cancelBooking_reverts bookedDemoDoc "B1").2 1
      (cancelBooking bookedDemoDoc "B1").2 rfl).2.2.2.2.2 (by decide)) "u2" 0 15

/-- Claim C6: cancellation is allowed exactly for `confirmed` bookings
with at least two hours until the scheduled departure; a disallowed
cancellation forfeits the whole amount, an allowed one refunds
`round(totalAmount * p / 100)` with p = 90 / 75 / 50 / 0 at the 48h /
24h / 4h tiers and fee `totalAmount - refund`; a 1000-rupee booking
departing in 30 hours refunds 750 with fee 250. -/
theorem C6_cancellation_policy (b : BookingDoc) (now : Int) :
    (∀ ms, canBeCancelled b now = CancelCheck.allowed ms ↔
      (b.status = "confirmed" ∧ ms = departureInstant b - now ∧ 2 * 3600000 ≤ ms)) ∧
    (b.status ≠ "confirmed" → calculateCancellationFee b now = (0, b.totalAmount)) ∧
    (departureInstant b - now < 2 * 3600000 →
      calculateCancellationFee b now = (0, b.totalAmount)) ∧
    (b.status = "confirmed" → 48 * 3600000 ≤ departureInstant b - now →
      calculateCancellationFee b now =
        ((b.totalAmount * 90 + 50) / 100,
          b.totalAmount - (b.totalAmount * 90 + 50) / 100)) ∧
    (b.status = "confirmed" → 24 * 3600000 ≤ departureInstant b - now →
      departureInstant b - now < 48 * 3600000 →
      calculateCancellationFee b now =
        ((b.totalAmount * 75 + 50) / 100,
          b.totalAmount - (b.totalAmount * 75 + 50) / 100)) ∧
    (b.status = "confirmed" → 4 * 3600000 ≤ departureInstant b - now →
      departureInstant b - now < 24 * 3600000 →
      calculateCancellationFee b now =
        ((b.totalAmount * 50 + 50) / 100,
          b.totalAmount - (b.totalAmount * 50 + 50) / 100)) ∧
    (b.status = "confirmed" → 2 * 3600000 ≤ departureInstant b - now →
      departureInstant b - now < 4 * 3600000 →
      calculateCancellationFee b now = (0, b.totalAmount)) ∧
    calculateCancellationFee ⟨"confirmed", 108000000, 0, 0, 1000⟩ 0 = (750, 250) := by
  have hallow : ∀ hst : b.status = "confirmed",
      ¬ departureInstant b - now < 2 * 3600000 →
      canBeCancelled b now = CancelCheck.allowed (departureInstant b - now) := by
    intro hst h2
    unfold canBeCancelled
    rw [if_neg (by simp [hst]), if_neg h2]
  have hdeny1 : b.status ≠ "confirmed" →
      canBeCancelled b now = CancelCheck.notAllowed "Booking is not in confirmed status" := by
    intro hst
    unfold canBeCancelled
    rw [if_pos hst]
  have hdeny2 : b.status = "confirmed" → departureInstant b - now < 2 * 3600000 →
      canBeCancelled b now = CancelCheck.notAllowed
        "Cannot cancel booking less than 2 hours before departure" := by
    intro hst h2
    unfold canBeCancelled
    rw [if_neg (by simp [hst]), if_pos h2]
  refine ⟨?_, ?_, ?_, ?_, ?_, ?_, ?_, by decide⟩
  · intro ms
    by_cases hst : b.status = "confirmed"
    · by_cases h2 : departureInstant b - now < 2 * 3600000
      · rw [hdeny2 hst h2]
        constructor
        · intro h; exact absurd h (by simp)
        · rintro ⟨-, rfl, hge⟩; omega
      · rw [hallow hst h2]
        constructor
        · intro h
          have hms := CancelCheck.allowed.inj h
          exact ⟨hst, hms.symm, by omega⟩
        · rintro ⟨-, rfl, -⟩; rfl
    · rw [hdeny1 hst]
      constructor
      · intro h; exact absurd h (by simp)
      · rintro ⟨hc, -⟩; exact absurd hc hst
  · intro hst
    unfold calculateCancellationFee
    rw [hdeny1 hst]
  · intro h2
    by_cases hst : b.status = "confirmed"
    · unfold calculateCancellationFee
      rw [hdeny2 hst h2]
    · unfold calculateCancellationFee
      rw [hdeny1 hst]
  · intro hst h48
    unfold calculateCancellationFee
    rw [hallow hst (by omega)]
    simp only [ge_iff_le]
    rw [if_pos h48]
  · intro hst h24 h48
    unfold calculateCancellationFee
    rw [hallow hst (by omega)]
    simp only [ge_iff_le]
    rw [if_neg (by omega), if_pos h24]
  · intro hst h4 h24
    unfold calculateCancellationFee
    rw [hallow hst (by omega)]
    simp only [ge_iff_le]
    rw [if_neg (by omega), if_neg (by omega), if_pos h4]
  · intro hst h2lo h4
    unfold calculateCancellationFee
    rw [hallow hst (by omega)]
    simp only [ge_iff_le]
    rw [if_neg (by omega), if_neg (by omega), if_neg (by omega)]
    norm_num

/-- Witness for C6 at the spec's example: status confirmed, departure in
30 hours, total 1000 — the 24-hour tier applies. -/
theorem C6_cancellation_policy_witness :
    calculateCancellationFee ⟨"confirmed", 108000000, 0, 0, 1000⟩ 0 =
      ((1000 * 75 + 50) / 100, 1000 - (1000 * 75 + 50) / 100) :=
  (C6_cancellation_policy ⟨"confirmed", 108000000, 0, 0, 1000⟩ 0).2.2.2.2.1
    rfl (by decide) (by decide)

theorem jsRound_nonneg (q : ℚ) (h : 0 ≤ q) : 0 ≤ jsRound q := by
  unfold jsRound
  exact Int.le_floor.mpr (by push_cast; linarith)

theorem jsRound_le_of_lt (q : ℚ) (n : Int) (h : q + 1/2 < n + 1) : jsRound q ≤ n := by
  unfold jsRound
  have h2 : ⌊q + 1/2⌋ < n + 1 := Int.floor_lt.mpr (by push_cast; linarith)
  omega

theorem jsRound_tier_bounds (t p : ℚ) (hp0 : 0 ≤ p) (hp : p ≤ 90) :
    (0 ≤ t → 0 ≤ ((jsRound (t * p / 100) : Int) : ℚ) ∧
      ((jsRound (t * p / 100) : Int) : ℚ) +
        (t - ((jsRound (t * p / 100) : Int) : ℚ)) = t) ∧
    (∀ n : ℕ, t = n → 0 ≤ t - ((jsRound (t * p / 100) : Int) : ℚ)) := by
  constructor
  · intro ht
    constructor
    · have hq : 0 ≤ t * p / 100 := div_nonneg (mul_nonneg ht hp0) (by norm_num)
      exact_mod_cast jsRound_nonneg _ hq
    · ring
  · intro n hn
    subst hn
    have hn0 : (0:ℚ) ≤ (n : ℚ) := Nat.cast_nonneg n
    have h1 : (n:ℚ) * p ≤ (n:ℚ) * 90 := mul_le_mul_of_nonneg_left hp hn0
    have hlt : (n : ℚ) * p / 100 + 1/2 < ((n : Int) : ℚ) + 1 := by
      push_cast
      linarith
    have hle := jsRound_le_of_lt ((n:ℚ) * p / 100) (n : Int) hlt
    have h2 : ((jsRound ((n:ℚ) * p / 100) : Int) : ℚ) ≤ ((n : Int) : ℚ) := by
      exact_mod_cast hle
    push_cast at h2
    linarith

/-- Claim C10 counterexample: with the reachable fractional amount 0.6
(three fifths), confirmed status and 48 hours until departure, the 90%
tier rounds the refund to `Math.round(0.54) = 1`, so the fee is
`0.6 - 1 = -0.4` — negative, refuting the claimed non-negativity on the
program's actual `Number` domain. -/
theorem C10_fractional_fee_negative_counterexample :
    (calculateCancellationFeeQ ⟨"confirmed", 172800000, 0, 0, 3/5⟩ 0).1 = 1 ∧
    (calculateCancellationFeeQ ⟨"confirmed", 172800000, 0, 0, 3/5⟩ 0).2 = 3/5 - 1 ∧
    (calculateCancellationFeeQ ⟨"confirmed", 172800000, 0, 0, 3/5⟩ 0).2 < 0 := by
  have h : calculateCancellationFeeQ ⟨"confirmed", 172800000, 0, 0, 3/5⟩ 0 =
      (1, 3/5 - 1) := by
    unfold calculateCancellationFeeQ canBeCancelledQ departureInstantQ
    norm_num [jsRound]
  rw [h]
  norm_num

/-- Claim C10 (amended): refund and fee always sum exactly to
`totalAmount`, and the refund is non-negative whenever `totalAmount`
is; the fee is non-negative whenever `totalAmount` is a non-negative
integer (whole-currency amounts), but not on the whole reachable
domain: for fractional amounts the rounded refund can exceed
`totalAmount`, driving the fee negative. -/
theorem C10_refund_fee_sum_amended (b : BookingDocQ) (now : Int) :
    (0 ≤ b.totalAmount →
      0 ≤ (calculateCancellationFeeQ b now).1 ∧
      (calculateCancellationFeeQ b now).1 + (calculateCancellationFeeQ b now).2 =
        b.totalAmount) ∧
    (∀ n : ℕ, b.totalAmount = n → 0 ≤ (calculateCancellationFeeQ b now).2) := by
  unfold calculateCancellationFeeQ
  cases canBeCancelledQ b now with
  | notAllowed r =>
      exact ⟨fun h => ⟨le_refl 0, by ring⟩, fun n hn => by simp [hn]⟩
  | allowed ms =>
      by_cases h48 : ms ≥ 48 * 3600000
      · simp only [h48, if_true]
        exact jsRound_tier_bounds b.totalAmount 90 (by norm_num) (by norm_num)
      · by_cases h24 : ms ≥ 24 * 3600000
        · simp only [h48, if_false, h24, if_true]
          exact jsRound_tier_bounds b.totalAmount 75 (by norm_num) (by norm_num)
        · by_cases h4 : ms ≥ 4 * 3600000
          · simp only [h48, if_false, h24, h4, if_true]
            exact jsRound_tier_bounds b.totalAmount 50 (by norm_num) (by norm_num)
          · simp only [h48, if_false, h24, h4]
            exact jsRound_tier_bounds b.totalAmount 0 (by norm_num) (by norm_num)

/-- Witness for C10 (amended) at a concrete whole-currency amount: a
confirmed 1000-unit booking 48 hours before departure has a
non-negative fee. -/
theorem C10_refund_fee_sum_amended_witness :
    0 ≤ (calculateCancellationFeeQ ⟨"confirmed", 172800000, 0, 0, 1000⟩ 0).2 :=
  (C10_refund_fee_sum_amended ⟨"confirmed", 172800000, 0, 0, 1000⟩ 0).2 1000
    (by norm_num)

/-! ### Character-level facts about the cache keys and lock tokens -/

theorem append_cons_prefix_eq {c : Char} : ∀ {a b t : List Char},
    c ∉ a → c ∉ b → (a ++ [c]) <+: (b ++ c :: t) → a = b := by
  intro a
  induction a with
  | nil =>
      intro b t _ hb h
      cases b with
      | nil => rfl
      | cons y b' =>
          rw [List.nil_append, List.cons_append, List.cons_prefix_cons] at h
          exact absurd h.1.symm (fun he => hb (he ▸ List.mem_cons_self y b'))
  | cons x a' ih =>
      intro b t ha hb h
      cases b with
      | nil =>
          rw [List.cons_append, List.nil_append, List.cons_prefix_cons] at h
          exact absurd h.1 (fun he => ha (he ▸ List.mem_cons_self x a'))
      | cons y b' =>
          rw [List.cons_append, List.cons_append, List.cons_prefix_cons] at h
          have ha' : c ∉ a' := fun hm => ha (List.mem_cons_of_mem x hm)
          have hb' : c ∉ b' := fun hm => hb (List.mem_cons_of_mem y hm)
          rw [h.1, ih ha' hb' h.2]

theorem seatLocksKey_ne_lockKey (u r d : String) : seatLocksKey u ≠ lockKey r d := by
  intro h
  have h2 := congrArg String.data h
  unfold seatLocksKey lockKey at h2
  simp only [String.data_append] at h2
  have h3 := congrArg List.head? h2
  simp at h3

theorem strStartsWith_lockValue_ne (u u' : String) (t' : Int)
    (hne : u ≠ u') (hu : ':' ∉ u.data) (hu' : ':' ∉ u'.data) :
    strStartsWith (lockValue u' t') (u ++ ":") = false := by
  rw [Bool.eq_false_iff]
  intro htrue
  unfold strStartsWith at htrue
  rw [ List.isPrefixOf_iff_prefix] at htrue
  have hdata : (u ++ ":").data = u.data ++ [':'] := by
    rw [String.data_append]
  have hdata' : (lockValue u' t').data = u'.data ++ ':' :: (toString t').data := by
    unfold lockValue
    rw [String.data_append, String.data_append]
    simp
  rw [hdata, hdata'] at htrue
  exact hne (String.ext (append_cons_prefix_eq hu hu' htrue))

/-! ### Store lookup lemmas -/

theorem find?_filter_ne (st : Store) (k k' : String) (hne : k ≠ k') :
    (st.filter (fun e => !(e.1 == k))).find? (fun e => e.1 == k') =
      st.find? (fun e => e.1 == k') := by
  induction st with
  | nil => rfl
  | cons e rest ih =>
      by_cases hek : e.1 = k
      · have h1 : (!(e.1 == k)) = false := by simp [hek]
        have h2 : (e.1 == k') = false := by
          simp only [beq_eq_false_iff_ne, ne_eq]
          exact fun hx => hne (hek ▸ hx ▸ rfl)
        rw [List.filter_cons, h1]
        simp only [Bool.false_eq_true, if_false]
        rw [List.find?_cons, h2]
        exact ih
      · have h1 : (!(e.1 == k)) = true := by simp [hek]
        rw [List.filter_cons, h1]
        simp only [if_true]
        rw [List.find?_cons, List.find?_cons]
        cases hk' : (e.1 == k') with
        | true => rfl
        | false => exact ih

theorem storeGet_storeDel_self (st : Store) (k : String) (now : Int) :
    storeGet (storeDel st k) k now = none := by
  unfold storeGet storeDel
  have hnone : (st.filter (fun e => !(e.1 == k))).find? (fun e => e.1 == k) = none := by
    rw [List.find?_eq_none]
    intro e he
    have h2 := (List.mem_filter.mp he).2
    simp only [Bool.not_eq_eq_eq_not, Bool.not_true] at h2
    simp [h2]
  rw [hnone]

theorem storeGet_storeDel_ne (st : Store) (k k' : String) (now : Int) (hne : k ≠ k') :
    storeGet (storeDel st k) k' now = storeGet st k' now := by
  unfold storeGet storeDel
  rw [find?_filter_ne st k k' hne]

theorem storeGet_storeSet_ne (st : Store) (k k' : String) (v : CacheVal)
    (ttl now now' : Int) (hne : k ≠ k') :
    storeGet (storeSet st k v ttl now) k' now' = storeGet st k' now' := by
  unfold storeSet storeGet
  have h1 : ((k, (⟨v, now + ttl * 1000⟩ : CacheEntry)).1 == k') = false := by simp [hne]
  rw [List.find?_cons, h1, find?_filter_ne st k k' hne]

/-- Claim C8 (amended): `acquire` succeeds exactly when no unexpired
lease exists for the key.  `release`, however, matches only the holder
identity prefix `userId:` of the stored token, not the full
`userId:timestamp` token: it removes the (unexpired) lease exactly when
the stored value starts with `userId:`, and removal leaves the key
absent.  A lease held by a different (colon-free) userId is therefore
never removed, but a delayed release by the same user does remove that
user's newer lease. -/
theorem C8_lease_semantics (st : Store) (r d u : String) (ttl now : Int) :
    ((acquireLock st r d u ttl now).1 = true ↔ storeGet st (lockKey r d) now = none) ∧
    ((releaseLock st r d u now).1 = true ↔
      ∃ v, storeGet st (lockKey r d) now = some (CacheVal.str v) ∧
        strStartsWith v (u ++ ":") = true) ∧
    ((releaseLock st r d u now).1 = true →
      storeGet (releaseLock st r d u now).2 (lockKey r d) now = none) ∧
    (∀ u' t', storeGet st (lockKey r d) now = some (CacheVal.str (lockValue u' t')) →
      u ≠ u' → ':' ∉ u.data → ':' ∉ u'.data →
      releaseLock st r d u now = (false, st)) := by
  refine ⟨?_, ?_, ?_, ?_⟩
  · unfold acquireLock setNX
    cases hget : storeGet st (lockKey r d) now with
    | none => simp [hget]
    | some v => simp [hget]
  · unfold releaseLock
    cases hget : storeGet st (lockKey r d) now with
    | none => simp
    | some v =>
        cases v with
        | str s =>
            by_cases hpre : strStartsWith s (u ++ ":") = true
            · simp [hpre]
            · simp [hpre]
        | info i => simp
  · unfold releaseLock
    cases hget : storeGet st (lockKey r d) now with
    | none => simp
    | some v =>
        cases v with
        | str s =>
            by_cases hpre : strStartsWith s (u ++ ":") = true
            · intro _
              simp only [hpre, if_true]
              exact storeGet_storeDel_self st (lockKey r d) now
            · simp [hpre]
        | info i => simp
  · intro u' t' hget hne hu hu'
    unfold releaseLock
    rw [hget]
    simp [strStartsWith_lockValue_ne u u' t' hne hu hu']

/-- Claim C8 counterexample: the live lease carries token "u1:5000"
(u1's re-acquisition); a delayed release stemming from u1's earlier
acquisition at t = 2000 — whose token "u1:2000" differs from the
current holder's token — nevertheless removes the lease, because
`releaseLock` compares only the `userId:` prefix. -/
theorem C8_release_token_counterexample :
    lockValue "u1" 2000 ≠ lockValue "u1" 5000 ∧
    (releaseLock staleReleaseStore "r1" "d1" "u1" 6000).1 = true ∧
    storeGet (releaseLock staleReleaseStore "r1" "d1" "u1" 6000).2
      (lockKey "r1" "d1") 6000 = none := by
  decide

/-- Witness for C8 (amended): bob's release of alice's live lease is
refused and leaves the store untouched. -/
theorem C8_lease_semantics_witness :
    releaseLock otherHolderStore "r1" "d1" "bob" 10 = (false, otherHolderStore) :=
  (C8_lease_semantics otherHolderStore "r1" "d1" "bob" 30 10).2.2.2 "alice" 5
    (by decide) (by decide) (by decide) (by decide)

/-- Claim C4 counterexample: at t = 100 another holder's DistributedLock
lease on (r1, d1) is live — `serviceLockSeats` at that instant fails
with `lockAcquisitionFailure` — yet `serviceReleaseSeats` succeeds and
mutates the inventory (the seat returns to `available`, `lockedCount`
drops to 0) while the other holder's lease remains in place, and
`serviceExtendSeatLock` likewise succeeds, rewriting the seat's
`lockExpiry`.  Both mutate the inventory without acquiring the lock. -/
theorem C4_mutation_without_lock_counterexample :
    (serviceLockSeats heldByOtherState "r1" "d1" ["1"] "u1" 15 100).1 =
      Except.error SvcError.lockAcquisitionFailure ∧
    (serviceReleaseSeats heldByOtherState "r1" "d1" ["1"] "u1").1 = Except.ok 1 ∧
    ((serviceReleaseSeats heldByOtherState "r1" "d1" ["1"] "u1").2.db.map
      (fun doc => doc.summary.lockedCount)) = some 0 ∧
    storeGet (serviceReleaseSeats heldByOtherState "r1" "d1" ["1"] "u1").2.cache
      (lockKey "r1" "d1") 100 = some (CacheVal.str (lockValue "other" 0)) ∧
    (serviceExtendSeatLock heldByOtherState "u1" 5 100).1 =
      Except.ok (100 + 5 * 60 * 1000) ∧
    ((serviceExtendSeatLock heldByOtherState "u1" 5 100).2.db.map
      (fun doc => (findSeat? doc.seatsAvailable "1").map Seat.lockExpiry)) =
      some (some (some (100 + 5 * 60 * 1000))) ∧
    storeGet (serviceExtendSeatLock heldByOtherState "u1" 5 100).2.cache
      (lockKey "r1" "d1") 100 = some (CacheVal.str (lockValue "other" 0)) :=
  ⟨rfl, rfl, rfl, rfl, rfl, rfl, rfl⟩

/-- Claim C4 (amended): only `serviceLockSeats` follows the
acquire–mutate–release discipline — when a live lease exists it fails
with `lockAcquisitionFailure` and changes nothing.  `serviceReleaseSeats`
and `serviceExtendSeatLock` never read or write any `booking_lock:` key
(their only cache effect is on the `seat_locks:` index), and
`serviceReleaseSeats` performs its inventory mutation unconditionally
whenever the document exists, whatever the lease state. -/
theorem C4_lock_discipline_amended (st : ServiceState) (r d u : String)
    (ns : List String) (dur now : Int) :
    (∀ v, storeGet st.cache (lockKey r d) now = some v →
      serviceLockSeats st r d ns u dur now =
        (Except.error SvcError.lockAcquisitionFailure, st)) ∧
    (∀ r' d' now', storeGet (serviceReleaseSeats st r d ns u).2.cache
        (lockKey r' d') now' = storeGet st.cache (lockKey r' d') now') ∧
    (∀ doc, st.db = some doc →
      (serviceReleaseSeats st r d ns u).2.db = some (releaseLocks doc ns (some u)).2 ∧
      (serviceReleaseSeats st r d ns u).1 = Except.ok (releaseLocks doc ns (some u)).1) ∧
    (∀ addMin now' r' d' now'',
      storeGet (serviceExtendSeatLock st u addMin now').2.cache (lockKey r' d') now'' =
        storeGet st.cache (lockKey r' d') now'') := by
  refine ⟨?_, ?_, ?_, ?_⟩
  · intro v hv
    unfold serviceLockSeats acquireLock setNX
    simp [hv]
  · intro r' d' now'
    unfold serviceReleaseSeats
    cases hdb : st.db with
    | none => rfl
    | some doc =>
        simp only []
        exact storeGet_storeDel_ne st.cache (seatLocksKey u) (lockKey r' d') now'
          (seatLocksKey_ne_lockKey u r' d')
  · intro doc hdb
    unfold serviceReleaseSeats
    rw [hdb]
    exact ⟨rfl, rfl⟩
  · intro addMin now' r' d' now''
    unfold serviceExtendSeatLock
    cases hget : storeGet st.cache (seatLocksKey u) now' with
    | none => rfl
    | some v =>
        cases v with
        | str s => rfl
        | info i =>
            cases hdb : st.db with
            | none => rfl
            | some doc =>
                simp only []
                exact storeGet_storeSet_ne st.cache (seatLocksKey u) (lockKey r' d') _
                  ((addMin + 5) * 60) now' now'' (seatLocksKey_ne_lockKey u r' d')

/-- Witness for C4 (amended): with the other holder's lease live,
`serviceLockSeats` fails and leaves the state untouched. -/
theorem C4_lock_discipline_amended_witness :
    serviceLockSeats heldByOtherState "r1" "d1" ["1"] "u1" 15 100 =
      (Except.error SvcError.lockAcquisitionFailure, heldByOtherState) :=
  (C4_lock_discipline_amended heldByOtherState "r1" "d1" "u1" ["1"] 15 100).1
    (CacheVal.str (lockValue "other" 0)) (by decide)
